import Mathlib

/-!
Verification of the repowire mesh core: a shallow embedding of the
message bus, peer registry, mesh broadcast, encryption-manager session
cache, the three AEAD framing schemes, key wrapping, and the
HMAC-SHA512 hierarchical key derivation, with theorems settling the
frozen specification claims.

Conventions: bytes are `Nat` values below 256, byte strings are
`List Nat`; Python dicts are association lists with insertion order and
in-place overwrite (as CPython guarantees); Python exceptions are
modelled as an `Option String` error component or `Except`; random
inputs (nonces, IVs, ephemeral keys, generated uuids) are explicit
parameters; external library primitives (NaCl secretbox/box, AES-GCM,
json, base64) are structure parameters whose contracts appear as
hypotheses, while everything else is translated from the repository
source.
-/

namespace Repowire

/-! ### Python dict as an ordered association list -/

/-- `d[k]` lookup: first (and, with unique keys, only) binding wins. -/
def dictGet {α : Type} (l : List (String × α)) (k : String) : Option α :=
  match l with
  | [] => none
  | (k', v) :: rest => if k' = k then some v else dictGet rest k

/-- `d[k] = v`: overwrite in place if present, else append (CPython
insertion-order semantics). -/
def dictSet {α : Type} (l : List (String × α)) (k : String) (v : α) :
    List (String × α) :=
  match l with
  | [] => [(k, v)]
  | (k', v') :: rest =>
      if k' = k then (k, v) :: rest else (k', v') :: dictSet rest k v

/-- `d.pop(k, None)`: remove the binding for `k` if present. -/
def dictPop {α : Type} (l : List (String × α)) (k : String) :
    List (String × α) :=
  match l with
  | [] => []
  | (k', v') :: rest =>
      if k' = k then rest else (k', v') :: dictPop rest k

/-- `d.values()` in insertion order. -/
def dictValues {α : Type} (l : List (String × α)) : List α := l.map Prod.snd

/-- The keys of the dict are pairwise distinct (true of every Python dict). -/
def keysNodup {α : Type} (l : List (String × α)) : Prop :=
  (l.map Prod.fst).Nodup

/-! ### Message bus (`src/repowire/bus.py`)

`Message` carries an id, a type, source/target, an opaque payload
(modelled as `String`) and an optional correlation id.  Generated uuids
are explicit parameters of the constructors (uuid4 randomness).
`asyncio.Future` slots are `Fut`; the bus state holds the handler
names, the pending-response map, the message log and, standing in for
`asyncio.create_task(handler(message))`, the list of dispatched
(handler, message) pairs in dispatch order. -/

inductive BusMessageType
  | query
  | response
  | notification
  | broadcast
deriving DecidableEq, Repr

structure Msg where
  id : String
  type : BusMessageType
  source : String
  target : Option String
  content : String
  correlationId : Option String
deriving DecidableEq, Repr

/-- `Message.query`: one uuid4 draw `u` becomes both the id and the
correlation id. -/
def busMessageQuery (u : String) (source target : String) (content : String) :
    Msg :=
  { id := u, type := .query, source := source, target := some target,
    content := content, correlationId := some u }

/-- `Message.response`. -/
def busMessageResponse (u : String) (source target : String)
    (content : String) (correlationId : String) : Msg :=
  { id := u, type := .response, source := source, target := some target,
    content := content, correlationId := some correlationId }

/-- An `asyncio.Future`: waiting, or fulfilled with a message. -/
inductive Fut
  | waiting
  | done (m : Msg)
deriving DecidableEq, Repr

structure BusState where
  handlers : List String
  pending : List (String × Fut)
  log : List Msg
  dispatched : List (String × Msg)
deriving DecidableEq, Repr

/-- Truthiness of `message.correlation_id and ...`: `None` and the empty
string are falsy. -/
def responseKey (m : Msg) : Option String :=
  match m.correlationId with
  | none => none
  | some c => if c = "" then none else some c

/-- `message.correlation_id or message.id`. -/
def queryKey (m : Msg) : String :=
  match m.correlationId with
  | none => m.id
  | some c => if c = "" then m.id else c

/-- `MessageBus.send`.  The message is appended to the log; a RESPONSE
resolves a live pending future (`Future.set_result` raises
`InvalidStateError` on an already-fulfilled future — the `Option String`
component is the exception escaping `send`); QUERY/NOTIFICATION are
dispatched to the target's handler when registered, BROADCAST to every
handler other than the source. -/
def busSend (st : BusState) (m : Msg) : Option String × BusState :=
  let st1 : BusState := { st with log := st.log ++ [m] }
  match m.type with
  | .response =>
      match responseKey m with
      | none => (none, st1)
      | some cid =>
          match dictGet st1.pending cid with
          | none => (none, st1)
          | some .waiting =>
              (none, { st1 with pending := dictSet st1.pending cid (.done m) })
          | some (.done _) => (some "InvalidStateError", st1)
  | .broadcast =>
      (none, { st1 with
        dispatched :=
          st1.dispatched ++ (st1.handlers.filter (· ≠ m.source)).map
            (fun a => (a, m)) })
  | _ =>
      match m.target with
      | none => (none, st1)
      | some t =>
          if t = "" then (none, st1)
          else if t ∈ st1.handlers then
            (none, { st1 with dispatched := st1.dispatched ++ [(t, m)] })
          else (none, st1)

/-- The prefix of `MessageBus.query` executed before the caller suspends
on the future: type check (a `ValueError` leaves the state untouched),
registration of the pending future under the correlation key, then
`send`. -/
def busQueryStart (st : BusState) (m : Msg) : Option String × BusState :=
  if m.type ≠ .query then
    (some "ValueError: Only QUERY messages can await responses", st)
  else
    busSend { st with pending := dictSet st.pending (queryKey m) .waiting } m

/-- The caller resuming from `await asyncio.wait_for(future, ...)`
followed by the `finally` block: the fulfilled message (if any) is
consumed and the pending entry popped. -/
def busConsume (st : BusState) (cid : String) : Option Msg × BusState :=
  (match dictGet st.pending cid with
   | some (.done m) => some m
   | _ => none,
   { st with pending := dictPop st.pending cid })

/-! ### Protocol messages (`src/repowire/protocol/messages.py`)

The pydantic `Message` model; field defaults generated by
`default_factory=lambda: str(uuid4())` are explicit uuid-draw
parameters. -/

structure ProtoMsg where
  id : String
  type : BusMessageType
  fromPeer : String
  toPeer : Option String
  payload : List (String × String)
  correlationId : Option String
deriving DecidableEq, Repr

/-- `QueryMessage.create(from_peer, to_peer, text)`: the pydantic model
fills `id` from one uuid4 draw and `correlation_id` from an independent
uuid4 draw (its own `default_factory`). -/
def queryMessageCreate (idDraw corrDraw : String)
    (fromPeer toPeer text : String) : ProtoMsg :=
  { id := idDraw, type := .query, fromPeer := fromPeer,
    toPeer := some toPeer, payload := [("text", text)],
    correlationId := some corrDraw }

/-! ### Peer registry (`src/repowire/mesh/peers.py`) -/

structure Peer where
  name : String
  agentType : String
  sessionId : String
  path : String
  capabilities : List String
  registeredAt : Nat
  isActive : Bool
deriving DecidableEq, Repr

/-- `PeerRegistry.register`: `self._peers[peer.name] = peer`, returning
`list(self._peers.values())`. -/
def registryRegister (reg : List (String × Peer)) (p : Peer) :
    List Peer × List (String × Peer) :=
  let reg' := dictSet reg p.name p
  (dictValues reg', reg')

/-- `PeerRegistry.get`. -/
def registryGet (reg : List (String × Peer)) (name : String) : Option Peer :=
  dictGet reg name

/-- `PeerRegistry.list_all`. -/
def registryListAll (reg : List (String × Peer)) : List Peer := dictValues reg

/-! ### Mesh broadcast (`src/repowire/mesh/server.py`)

`broadcast(caller, message)` iterates over `registry.list_all()`,
skips the caller, resolves the transport and sends the formatted
notification, collecting names into `notified` and
`f"{peer.name}: {e}"` strings into `errors`; every exception from
transport resolution or sending is caught inside the loop.  Transport
resolution plus `send_notification` is the function parameter
`send : Peer -> Except String Unit` (an `Except.error` is a raised
exception, carrying `str(e)`). -/

def broadcastFormat (caller message : String) : String :=
  "[BROADCAST from " ++ caller ++ "]: " ++ message

/-- The `for peer in registry.list_all()` loop body of `broadcast`. -/
def broadcastLoop (send : Peer → Except String Unit) (caller : String) :
    List Peer → List String × List String
  | [] => ([], [])
  | p :: rest =>
      if p.name = caller then broadcastLoop send caller rest
      else
        match send p with
        | .ok _ =>
            let r := broadcastLoop send caller rest
            (p.name :: r.1, r.2)
        | .error e =>
            let r := broadcastLoop send caller rest
            (r.1, (p.name ++ ": " ++ e) :: r.2)

/-- `broadcast`: returns `{"notified": ..., "errors": ...,
"success": len(errors) == 0}`. -/
def meshBroadcast (reg : List (String × Peer)) (caller message : String)
    (send : Peer → String → Except String Unit) :
    List String × List String × Bool :=
  let fmt := broadcastFormat caller message
  let r := broadcastLoop (fun p => send p fmt) caller (registryListAll reg)
  (r.1, r.2, r.2.isEmpty)

/-! ### Encryption-manager session cache
(`src/repowire/transport/happy_encryption.py`, `HappyEncryption`)

`initialize_session` picks the legacy `SecretBoxEncryption` (keyed by
the master secret) when `data_key is None` and a fresh
`AES256Encryption(data_key)` otherwise, then stores the new
`SessionEncryption` under the session id unconditionally;
`get_session_encryption` is a cache lookup. -/

inductive EncChoice
  | legacy
  | aes (key : List Nat)
deriving DecidableEq, Repr

structure SessionEnc where
  sessionId : String
  encryptor : EncChoice
deriving DecidableEq, Repr

structure HappyEncState where
  sessions : List (String × SessionEnc)
deriving DecidableEq, Repr

def initializeSession (st : HappyEncState) (sessionId : String)
    (dataKey : Option (List Nat)) : SessionEnc × HappyEncState :=
  let enc : EncChoice :=
    match dataKey with
    | none => .legacy
    | some k => .aes k
  let s : SessionEnc := { sessionId := sessionId, encryptor := enc }
  (s, { sessions := dictSet st.sessions sessionId s })

def getSessionEncryption (st : HappyEncState) (sessionId : String) :
    Option SessionEnc :=
  dictGet st.sessions sessionId

/-! ### External library primitives

The schemes in `happy_encryption.py` delegate to PyNaCl
(`SecretBox`, `Box`), the `cryptography` AES-GCM implementation, and
the stdlib `json` and `base64` modules.  Those are not repository code:
each is a structure parameter, and the contracts the repository relies
on (round trip, authentication) appear as explicit hypotheses of the
theorems. -/

/-- `json.dumps`/`json.loads` over an abstract value type `V`
(strings, numbers, nested dicts and lists); `loads` is `none` when
parsing (or utf-8 decoding) raises. -/
structure Serializer (V : Type) where
  dumps : V → List Nat
  loads : List Nat → Option V

/-- PyNaCl `SecretBox`: `encrypt key pt nonce` is the nonce-prefixed
combined ciphertext `bytes(box.encrypt(pt, nonce))`; `decrypt key item`
is `box.decrypt(item)`, `none` when the library raises. -/
structure SecretBoxLib where
  encrypt : List Nat → List Nat → List Nat → List Nat
  decrypt : List Nat → List Nat → Option (List Nat)

/-- PyNaCl `Box` (Curve25519): `pub` maps a private key (seed) to its
public key; `sealDetached skSender pkRecipient pt nonce` is the detached
ciphertext; `openDetached skReceiver pkSender nonce ct` opens it, `none` when
the library raises. -/
structure BoxLib where
  pub : List Nat → List Nat
  sealDetached : List Nat → List Nat → List Nat → List Nat → List Nat
  openDetached : List Nat → List Nat → List Nat → List Nat → Option (List Nat)

/-- `bytes(Box(...).encrypt(pt, nonce))`: the library prefixes the
nonce. -/
def boxEncryptCombined (bx : BoxLib) (skSender pkRecipient pt nonce :
    List Nat) : List Nat :=
  nonce ++ bx.sealDetached skSender pkRecipient pt nonce

/-- `Box(...).decrypt(item)` on a combined ciphertext: the library
splits off the 24-byte nonce, raising if `item` is shorter. -/
def boxDecryptCombined (bx : BoxLib) (skReceiver pkSender item : List Nat) :
    Option (List Nat) :=
  if item.length < 24 then none
  else bx.openDetached skReceiver pkSender (item.take 24) (item.drop 24)

/-- `cryptography` `AESGCM`: `encrypt key iv pt` is ciphertext plus
16-byte tag; `decrypt key iv ct` is `none` when authentication fails or
the input is malformed (the library raises). -/
structure AesGcmLib where
  encrypt : List Nat → List Nat → List Nat → List Nat
  decrypt : List Nat → List Nat → List Nat → Option (List Nat)

/-- `base64.b64encode`/`b64decode`; `decode` is `none` when decoding
raises. -/
structure B64 where
  encode : List Nat → String
  decode : String → Option (List Nat)

/-! ### AEAD schemes (`src/repowire/transport/happy_encryption.py`) -/

/-- One iteration of `SecretBoxEncryption.encrypt`: serialize, then
`box.encrypt(plaintext, nonce)` with the per-item random `nonce`. -/
def secretBoxEncryptItem {V : Type} (ser : Serializer V) (sb : SecretBoxLib)
    (key : List Nat) (nonce : List Nat) (item : V) : List Nat :=
  sb.encrypt key (ser.dumps item) nonce

/-- One iteration of `SecretBoxEncryption.decrypt`: `box.decrypt` then
`json.loads`; any exception yields `none`. -/
def secretBoxDecryptItem {V : Type} (ser : Serializer V) (sb : SecretBoxLib)
    (key : List Nat) (item : List Nat) : Option V :=
  match sb.decrypt key item with
  | none => none
  | some pt => ser.loads pt

/-- `SecretBoxEncryption.encrypt` over a list of items, with one random
nonce per item. -/
def secretBoxEncrypt {V : Type} (ser : Serializer V) (sb : SecretBoxLib)
    (key : List Nat) (nonces : List (List Nat)) (data : List V) :
    List (List Nat) :=
  (data.zip nonces).map (fun x => secretBoxEncryptItem ser sb key x.2 x.1)

/-- `SecretBoxEncryption.decrypt` over a list of items. -/
def secretBoxDecrypt {V : Type} (ser : Serializer V) (sb : SecretBoxLib)
    (key : List Nat) (data : List (List Nat)) : List (Option V) :=
  data.map (secretBoxDecryptItem ser sb key)

/-- One iteration of `BoxEncryption.encrypt`: fresh ephemeral key pair,
random nonce, `Box(ephemeral, holder_pk)`, output
`ephemeral_public_key(32) ++ nonce(24) ++ ciphertext`. -/
def boxEncryptItem {V : Type} (ser : Serializer V) (bx : BoxLib)
    (holderPk : List Nat) (ephSk nonce : List Nat) (item : V) : List Nat :=
  bx.pub ephSk ++ boxEncryptCombined bx ephSk holderPk (ser.dumps item) nonce

/-- One iteration of `BoxEncryption.decrypt`: `PublicKey(item[:32])`
(raising when fewer than 32 bytes are available), then
`Box(holder_sk, ephemeral_pub).decrypt(item[32:])`, then `json.loads`;
any exception yields `none`. -/
def boxDecryptItem {V : Type} (ser : Serializer V) (bx : BoxLib)
    (holderSk : List Nat) (item : List Nat) : Option V :=
  if item.length < 32 then none
  else
    match boxDecryptCombined bx holderSk (item.take 32) (item.drop 32) with
    | none => none
    | some pt => ser.loads pt

/-- `BoxEncryption.encrypt` over a list of items, with one random
(ephemeral key, nonce) pair per item. -/
def boxEncrypt {V : Type} (ser : Serializer V) (bx : BoxLib)
    (holderPk : List Nat) (rand : List (List Nat × List Nat))
    (data : List V) : List (List Nat) :=
  (data.zip rand).map (fun x => boxEncryptItem ser bx holderPk x.2.1 x.2.2 x.1)

/-- `BoxEncryption.decrypt` over a list of items. -/
def boxDecrypt {V : Type} (ser : Serializer V) (bx : BoxLib)
    (holderSk : List Nat) (data : List (List Nat)) : List (Option V) :=
  data.map (boxDecryptItem ser bx holderSk)

/-- One iteration of `AES256Encryption.encrypt`: random 12-byte IV,
output `version_byte(0x00) ++ iv(12) ++ ciphertext_with_tag`. -/
def aesEncryptItem {V : Type} (ser : Serializer V) (ag : AesGcmLib)
    (key iv : List Nat) (item : V) : List Nat :=
  0 :: (iv ++ ag.encrypt key iv (ser.dumps item))

/-- One iteration of `AES256Encryption.decrypt`: reject unless
`item[0] == 0` (an empty item raises `IndexError`, caught), split
`iv = item[1:13]`, `ciphertext = item[13:]`, authenticate-decrypt, then
`json.loads`; any exception yields `none`. -/
def aesDecryptItem {V : Type} (ser : Serializer V) (ag : AesGcmLib)
    (key : List Nat) (item : List Nat) : Option V :=
  match item with
  | [] => none
  | b :: rest =>
      if b ≠ 0 then none
      else
        match ag.decrypt key (rest.take 12) (rest.drop 12) with
        | none => none
        | some pt => ser.loads pt

/-- `AES256Encryption.encrypt` over a list of items, with one random IV
per item. -/
def aesEncrypt {V : Type} (ser : Serializer V) (ag : AesGcmLib)
    (key : List Nat) (ivs : List (List Nat)) (data : List V) :
    List (List Nat) :=
  (data.zip ivs).map (fun x => aesEncryptItem ser ag key x.2 x.1)

/-- `AES256Encryption.decrypt` over a list of items. -/
def aesDecrypt {V : Type} (ser : Serializer V) (ag : AesGcmLib)
    (key : List Nat) (data : List (List Nat)) : List (Option V) :=
  data.map (aesDecryptItem ser ag key)

/-! ### Session-key wrapping (`HappyEncryption`) -/

/-- `HappyEncryption.encrypt_encryption_key`: fresh ephemeral key and
24-byte nonce, `Box(ephemeral, content_public_key)`, output
`version(0x00) ++ ephemeral_public_key ++ bytes(encrypted)` where the
library-combined `encrypted` is `nonce ++ ciphertext`. -/
def encryptEncryptionKey (bx : BoxLib) (contentPk : List Nat)
    (ephSk nonce key : List Nat) : List Nat :=
  0 :: (bx.pub ephSk ++ boxEncryptCombined bx ephSk contentPk key nonce)

/-- `HappyEncryption.decrypt_encryption_key`: base64-decode, reject a
non-zero (or absent) version byte, split
`ephemeral_pubkey(32) ++ nonce(24) ++ ciphertext`
(`PublicKey` raises when fewer than 32 bytes remain, `Box.decrypt`
raises when the nonce slice is shorter than 24 bytes), then open with
the content private key; any exception yields `none`. -/
def decryptEncryptionKey (b64 : B64) (bx : BoxLib) (contentSk : List Nat)
    (s : String) : Option (List Nat) :=
  match b64.decode s with
  | none => none
  | some [] => none
  | some (v :: rest) =>
      if v ≠ 0 then none
      else if rest.length < 32 then none
      else if rest.length < 56 then none
      else bx.openDetached contentSk (rest.take 32) ((rest.drop 32).take 24)
        (rest.drop 56)

/-! ### SHA-512, HMAC-SHA512 and key derivation
(`src/repowire/transport/happy_encryption.py`, `derive_key`)

`derive_key` calls Python's `hashlib.sha512` / `hmac.new`.  Those
stdlib primitives are embedded concretely from their specifications
(FIPS 180-4 and RFC 2104), so the derivation is fully executable;
machine words are `Nat` with explicit reduction modulo `2^64`. -/

/-- Reduce to a 64-bit word. -/
def w64 (n : Nat) : Nat := n % 18446744073709551616

def add64 (a b : Nat) : Nat := (a + b) % 18446744073709551616

/-- Bitwise complement of a 64-bit word (for `a < 2^64`). -/
def not64 (a : Nat) : Nat := 18446744073709551615 - a

def rotr64 (x n : Nat) : Nat := w64 ((x >>> n) ||| (x <<< (64 - n)))

def chF (e f g : Nat) : Nat := Nat.xor (Nat.land e f) (Nat.land (not64 e) g)

def majF (a b c : Nat) : Nat :=
  Nat.xor (Nat.xor (Nat.land a b) (Nat.land a c)) (Nat.land b c)

def bigSig0 (a : Nat) : Nat :=
  Nat.xor (Nat.xor (rotr64 a 28) (rotr64 a 34)) (rotr64 a 39)

def bigSig1 (e : Nat) : Nat :=
  Nat.xor (Nat.xor (rotr64 e 14) (rotr64 e 18)) (rotr64 e 41)

def smallSig0 (x : Nat) : Nat :=
  Nat.xor (Nat.xor (rotr64 x 1) (rotr64 x 8)) (x >>> 7)

def smallSig1 (x : Nat) : Nat :=
  Nat.xor (Nat.xor (rotr64 x 19) (rotr64 x 61)) (x >>> 6)

/-- The 80 SHA-512 round constants (FIPS 180-4 §4.2.3). -/
def K512 : List Nat :=
  [   4794697086780616226, 8158064640168781261, 13096744586834688815,
    16840607885511220156, 4131703408338449720, 6480981068601479193,
    10538285296894168987, 12329834152419229976, 15566598209576043074,
    1334009975649890238, 2608012711638119052, 6128411473006802146,
    8268148722764581231, 9286055187155687089, 11230858885718282805,
    13951009754708518548, 16472876342353939154, 17275323862435702243,
    1135362057144423861, 2597628984639134821, 3308224258029322869,
    5365058923640841347, 6679025012923562964, 8573033837759648693,
    10970295158949994411, 12119686244451234320, 12683024718118986047,
    13788192230050041572, 14330467153632333762, 15395433587784984357,
    489312712824947311, 1452737877330783856, 2861767655752347644,
    3322285676063803686, 5560940570517711597, 5996557281743188959,
    7280758554555802590, 8532644243296465576, 9350256976987008742,
    10552545826968843579, 11727347734174303076, 12113106623233404929,
    14000437183269869457, 14369950271660146224, 15101387698204529176,
    15463397548674623760, 17586052441742319658, 1182934255886127544,
    1847814050463011016, 2177327727835720531, 2830643537854262169,
    3796741975233480872, 4115178125766777443, 5681478168544905931,
    6601373596472566643, 7507060721942968483, 8399075790359081724,
    8693463985226723168, 9568029438360202098, 10144078919501101548,
    10430055236837252648, 11840083180663258601, 13761210420658862357,
    14299343276471374635, 14566680578165727644, 15097957966210449927,
    16922976911328602910, 17689382322260857208, 500013540394364858,
    748580250866718886, 1242879168328830382, 1977374033974150939,
    2944078676154940804, 3659926193048069267, 4368137639120453308,
    4836135668995329356, 5532061633213252278, 6448918945643986474,
    6902733635092675308, 7801388544844847127]

/-- Big-endian serialization of `n` into `numBytes` bytes. -/
def toBytesBE (numBytes n : Nat) : List Nat :=
  (List.range numBytes).map (fun i => (n >>> (8 * (numBytes - 1 - i))) % 256)

/-- Big-endian word from bytes. -/
def bytesToWord (bytes : List Nat) : Nat :=
  bytes.foldl (fun acc b => acc * 256 + b) 0

/-- FIPS 180-4 padding: `0x80`, zeros to 112 mod 128, then the 16-byte
big-endian bit length. -/
def sha512Pad (msg : List Nat) : List Nat :=
  msg ++ [128] ++
    List.replicate ((240 - ((msg.length + 1) % 128)) % 128) 0 ++
    toBytesBE 16 (8 * msg.length)

/-- Split into 128-byte blocks. -/
def toBlocks : List Nat → List (List Nat)
  | [] => []
  | x :: xs => ((x :: xs).take 128) :: toBlocks ((x :: xs).drop 128)
  termination_by l => l.length
  decreasing_by simp [List.length_drop]; omega

/-- The 16 initial 64-bit message-schedule words of a block. -/
def blockWords (block : List Nat) : List Nat :=
  (List.range 16).map (fun i => bytesToWord ((block.drop (8 * i)).take 8))

/-- Extend the message schedule by `k` further words. -/
def extendSchedule : List Nat → Nat → List Nat
  | w, 0 => w
  | w, k + 1 =>
      let t := w.length
      extendSchedule
        (w ++ [add64 (add64 (smallSig1 (w.getD (t - 2) 0)) (w.getD (t - 7) 0))
          (add64 (smallSig0 (w.getD (t - 15) 0)) (w.getD (t - 16) 0))]) k

def schedule (block : List Nat) : List Nat :=
  extendSchedule (blockWords block) 64

structure Sha2State where
  a : Nat
  b : Nat
  c : Nat
  d : Nat
  e : Nat
  f : Nat
  g : Nat
  h : Nat
deriving DecidableEq, Repr

/-- One SHA-512 compression round with constant/schedule pair `kw`. -/
def shaRound (st : Sha2State) (kw : Nat × Nat) : Sha2State :=
  let t1 := add64 st.h (add64 (bigSig1 st.e)
    (add64 (chF st.e st.f st.g) (add64 kw.1 kw.2)))
  let t2 := add64 (bigSig0 st.a) (majF st.a st.b st.c)
  ⟨add64 t1 t2, st.a, st.b, st.c, add64 st.d t1, st.e, st.f, st.g⟩

def compressBlock (st : Sha2State) (block : List Nat) : Sha2State :=
  let fin := (K512.zip (schedule block)).foldl shaRound st
  ⟨add64 st.a fin.a, add64 st.b fin.b, add64 st.c fin.c, add64 st.d fin.d,
   add64 st.e fin.e, add64 st.f fin.f, add64 st.g fin.g, add64 st.h fin.h⟩

/-- SHA-512 initial hash value (FIPS 180-4 §5.3.5). -/
def sha512Init : Sha2State :=
  ⟨7640891576956012808,
   13503953896175478587,
   4354685564936845355,
   11912009170470909681,
   5840696475078001361,
   11170449401992604703,
   2270897969802886507,
   6620516959819538809⟩

/-- SHA-512 of a byte string. -/
def sha512 (msg : List Nat) : List Nat :=
  let st := (toBlocks (sha512Pad msg)).foldl compressBlock sha512Init
  toBytesBE 8 st.a ++ toBytesBE 8 st.b ++ toBytesBE 8 st.c ++
    toBytesBE 8 st.d ++ toBytesBE 8 st.e ++ toBytesBE 8 st.f ++
    toBytesBE 8 st.g ++ toBytesBE 8 st.h

/-- HMAC-SHA512 (RFC 2104; block size 128): Python's
`hmac.new(key, msg, hashlib.sha512).digest()`. -/
def hmacSha512 (key msg : List Nat) : List Nat :=
  let k0 := if 128 < key.length then sha512 key else key
  let kp := k0 ++ List.replicate (128 - k0.length) 0
  sha512 ((kp.map (fun b => Nat.xor b 92)) ++
    sha512 ((kp.map (fun b => Nat.xor b 54)) ++ msg))

/-- UTF-8 encoding of a code point. -/
def utf8Char (c : Nat) : List Nat :=
  if c < 128 then [c]
  else if c < 2048 then [192 ||| (c >>> 6), 128 ||| (c &&& 63)]
  else if c < 65536 then
    [224 ||| (c >>> 12), 128 ||| ((c >>> 6) &&& 63), 128 ||| (c &&& 63)]
  else
    [240 ||| (c >>> 18), 128 ||| ((c >>> 12) &&& 63),
     128 ||| ((c >>> 6) &&& 63), 128 ||| (c &&& 63)]

/-- `str.encode()`: UTF-8 bytes of a string. -/
def strBytes (s : String) : List Nat :=
  (s.data.map (fun ch => utf8Char ch.toNat)).flatten

/-- `derive_key(master, usage, path)` from `happy_encryption.py`: the
initial HMAC keyed by `usage + " Master Seed"` over the master secret,
split into key and chain code, then the loop over the path re-keying
by the chain code over `0x00 ++ utf8(index)`. -/
def deriveKey (master : List Nat) (usage : String) (path : List String) :
    List Nat :=
  let I0 := hmacSha512 (strBytes (usage ++ " Master Seed")) master
  (path.foldl (fun kc index =>
      let I := hmacSha512 kc.2 (0 :: strBytes index)
      (I.take 32, I.drop 32))
    (I0.take 32, I0.drop 32)).1

/-- The reference fold stated by the specification (§4.1): `I =
HMAC-SHA512(key = usage_label + " Master Seed", data = master)`; `key =
I[0:32]`, `chain = I[32:64]`; for each path element `p` in order `I =
HMAC-SHA512(key = chain, data = 0x00 ++ utf8(p))` with key and chain
reassigned; return the final key, the empty path returning the
first-level key. -/
def deriveKeySpecGo : List Nat → List Nat → List String → List Nat
  | key, _, [] => key
  | _, chain, p :: rest =>
      deriveKeySpecGo ((hmacSha512 chain (0 :: strBytes p)).take 32)
        ((hmacSha512 chain (0 :: strBytes p)).drop 32) rest

def deriveKeySpec (master : List Nat) (usage : String)
    (path : List String) : List Nat :=
  deriveKeySpecGo
    ((hmacSha512 (strBytes (usage ++ " Master Seed")) master).take 32)
    ((hmacSha512 (strBytes (usage ++ " Master Seed")) master).drop 32) path


/-! ## Theorems -/

/-! ### Python-dict lemmas -/

theorem dictGet_dictSet_self {α : Type} (l : List (String × α)) (k : String)
    (v : α) : dictGet (dictSet l k v) k = some v := by
  induction l with
  | nil => simp [dictSet, dictGet]
  | cons hd tl ih =>
      obtain ⟨k', v'⟩ := hd
      by_cases h : k' = k
      · simp [dictSet, dictGet, h]
      · simp [dictSet, dictGet, h, ih]

theorem dictGet_dictSet_ne {α : Type} (l : List (String × α)) (k k' : String)
    (v : α) (h : k ≠ k') : dictGet (dictSet l k v) k' = dictGet l k' := by
  induction l with
  | nil => simp [dictSet, dictGet, h]
  | cons hd tl ih =>
      obtain ⟨k0, v0⟩ := hd
      by_cases h0 : k0 = k
      · subst h0
        simp [dictSet, dictGet, h, Ne.symm h]
      · by_cases h1 : k0 = k'
        · subst h1
          simp [dictSet, dictGet, h0]
        · simp [dictSet, dictGet, h0, h1, ih]

theorem keys_dictSet_sub {α : Type} (l : List (String × α)) (k : String)
    (v : α) (k1 : String) (h : k1 ∈ (dictSet l k v).map Prod.fst) :
    k1 = k ∨ k1 ∈ l.map Prod.fst := by
  induction l with
  | nil =>
      simp only [dictSet, List.map_cons, List.map_nil, List.mem_singleton] at h
      exact Or.inl h
  | cons hd tl ih =>
      obtain ⟨k0, v0⟩ := hd
      by_cases h0 : k0 = k
      · subst h0
        rw [dictSet, if_pos rfl] at h
        simp only [List.map_cons, List.mem_cons] at h ⊢
        exact h.imp id Or.inr
      · rw [dictSet, if_neg h0] at h
        simp only [List.map_cons, List.mem_cons] at h ⊢
        rcases h with h | h
        · exact Or.inr (Or.inl h)
        · rcases ih h with h2 | h2
          · exact Or.inl h2
          · exact Or.inr (Or.inr h2)

theorem keysNodup_dictSet {α : Type} (l : List (String × α)) (k : String)
    (v : α) (h : keysNodup l) : keysNodup (dictSet l k v) := by
  induction l with
  | nil => simp [dictSet, keysNodup]
  | cons hd tl ih =>
      obtain ⟨k0, v0⟩ := hd
      rw [keysNodup, List.map_cons, List.nodup_cons] at h
      by_cases h0 : k0 = k
      · subst h0
        rw [dictSet, if_pos rfl, keysNodup, List.map_cons, List.nodup_cons]
        exact ⟨h.1, h.2⟩
      · rw [dictSet, if_neg h0, keysNodup, List.map_cons, List.nodup_cons]
        refine ⟨?_, ih h.2⟩
        intro hmem
        rcases keys_dictSet_sub tl k v k0 hmem with h2 | h2
        · exact h0 h2
        · exact h.1 h2

theorem dictGet_eq_none_of_not_mem_keys {α : Type} (l : List (String × α))
    (k : String) (h : k ∉ l.map Prod.fst) : dictGet l k = none := by
  induction l with
  | nil => rfl
  | cons hd tl ih =>
      obtain ⟨k0, v0⟩ := hd
      simp only [List.map_cons, List.mem_cons, not_or] at h
      rw [dictGet, if_neg (fun he => h.1 he.symm)]
      exact ih h.2

theorem mem_keys_dictSet_self {α : Type} (l : List (String × α)) (k : String)
    (v : α) : k ∈ (dictSet l k v).map Prod.fst := by
  induction l with
  | nil => simp [dictSet]
  | cons hd tl ih =>
      obtain ⟨k0, v0⟩ := hd
      by_cases h0 : k0 = k
      · rw [dictSet, if_pos h0]
        exact List.mem_cons_self _ _
      · rw [dictSet, if_neg h0, List.map_cons]
        exact List.mem_cons_of_mem _ ih

theorem length_dictSet_of_mem_keys {α : Type} (l : List (String × α))
    (k : String) (v : α) (h : k ∈ l.map Prod.fst) :
    (dictSet l k v).length = l.length := by
  induction l with
  | nil => simp at h
  | cons hd tl ih =>
      obtain ⟨k0, v0⟩ := hd
      by_cases h0 : k0 = k
      · rw [dictSet, if_pos h0, List.length_cons, List.length_cons]
      · rw [dictSet, if_neg h0, List.length_cons, List.length_cons]
        rw [List.map_cons, List.mem_cons] at h
        rcases h with h | h
        · exact absurd h.symm h0
        · rw [ih h]

theorem dictGet_dictPop_self {α : Type} (l : List (String × α)) (k : String)
    (h : keysNodup l) : dictGet (dictPop l k) k = none := by
  induction l with
  | nil => simp [dictPop, dictGet]
  | cons hd tl ih =>
      obtain ⟨k0, v0⟩ := hd
      rw [keysNodup, List.map_cons, List.nodup_cons] at h
      by_cases h0 : k0 = k
      · subst h0
        rw [dictPop, if_pos rfl]
        exact dictGet_eq_none_of_not_mem_keys tl k0 h.1
      · rw [dictPop, if_neg h0, dictGet, if_neg h0]
        exact ih h.2

/-- With distinct keys, after `d[k] = v` exactly one binding carries key
`k`, and it is `(k, v)`. -/
theorem filter_dictSet_eq_key {α : Type} (l : List (String × α)) (k : String)
    (v : α) (h : keysNodup l) :
    (dictSet l k v).filter (fun kv => kv.1 = k) = [(k, v)] := by
  induction l with
  | nil => simp [dictSet]
  | cons hd tl ih =>
      obtain ⟨k0, v0⟩ := hd
      rw [keysNodup, List.map_cons, List.nodup_cons] at h
      by_cases h0 : k0 = k
      · subst h0
        rw [dictSet, if_pos rfl]
        simp only [List.filter_cons, decide_eq_true_eq, if_pos rfl, if_true,
          decide_True]
        rw [List.cons_eq_cons]
        refine ⟨rfl, ?_⟩
        rw [List.filter_eq_nil_iff]
        rintro ⟨k1, v1⟩ hmem
        simp only [decide_eq_true_eq]
        intro hk1
        exact h.1 (hk1 ▸ List.mem_map.mpr ⟨(k1, v1), hmem, rfl⟩)
      · rw [dictSet, if_neg h0, List.filter_cons]
        simp only [decide_eq_true_eq, if_neg h0]
        exact ih h.2

/-! ### C1: `derive_key` is the reference HMAC-SHA512 fold -/

theorem sha512_length (msg : List Nat) : (sha512 msg).length = 64 := by
  simp [sha512, toBytesBE]

theorem hmacSha512_length (key msg : List Nat) :
    (hmacSha512 key msg).length = 64 :=
  sha512_length _

theorem deriveKey_foldl_eq_go (path : List String) (key chain : List Nat) :
    (path.foldl (fun kc index =>
        let I := hmacSha512 kc.2 (0 :: strBytes index)
        (I.take 32, I.drop 32)) (key, chain)).1 =
      deriveKeySpecGo key chain path := by
  induction path generalizing key chain with
  | nil => rfl
  | cons p rest ih =>
      rw [List.foldl_cons, deriveKeySpecGo]
      exact ih _ _

theorem deriveKeySpecGo_length (path : List String) (key chain : List Nat)
    (h : key.length = 32) :
    (deriveKeySpecGo key chain path).length = 32 := by
  induction path generalizing key chain with
  | nil => exact h
  | cons p rest ih =>
      rw [deriveKeySpecGo]
      exact ih _ _ (by rw [List.length_take, hmacSha512_length]; rfl)

/-- C1: `derive_key` computes exactly the reference HMAC-SHA512 fold of
§4.1 — the initial HMAC keyed by `usage + " Master Seed"` over the
master secret split into key/chain halves, then one HMAC per path
element in order, keyed by the chain code over `0x00 ++ utf8(p)` — the
empty path returns the first-level key, the output is always 32 bytes,
and the function is deterministic (it is a pure function: equal
arguments give equal results). -/
theorem derive_key_correct (master : List Nat) (usage : String)
    (path : List String) :
    deriveKey master usage path = deriveKeySpec master usage path
      ∧ (deriveKey master usage path).length = 32
      ∧ deriveKey master usage [] =
        (hmacSha512 (strBytes (usage ++ " Master Seed")) master).take 32
      ∧ deriveKey master usage path = deriveKey master usage path := by
  have heq : deriveKey master usage path = deriveKeySpec master usage path :=
    deriveKey_foldl_eq_go path _ _
  refine ⟨heq, ?_, rfl, rfl⟩
  rw [heq, deriveKeySpec]
  exact deriveKeySpecGo_length path _ _
    (by rw [List.length_take, hmacSha512_length]; rfl)

/-! ### Byte-string splitting lemmas -/

theorem take_append_len {α : Type} (a b : List α) (n : Nat)
    (h : a.length = n) : (a ++ b).take n = a :=
  h ▸ List.take_left a b

theorem drop_append_len {α : Type} (a b : List α) (n : Nat)
    (h : a.length = n) : (a ++ b).drop n = b :=
  h ▸ List.drop_left a b

theorem not_append_len_lt {α : Type} (a b : List α) (n : Nat)
    (h : a.length = n) : ¬ (a ++ b).length < n := by
  rw [List.length_append, h]
  omega

/-! ### C2: round trip of the three AEAD schemes -/

/-- C2: for each of the three AEAD schemes, decrypting an encryption of
a structured value `x` with the same scheme instance yields `x`, for
every choice of the random nonce / IV / ephemeral key used during
encryption.  Serialization (`json`) and the cipher cores (NaCl
secretbox/box, AES-GCM) are external libraries, represented by the
structure parameters; the hypotheses are exactly their documented
round-trip contracts at the used keys and randomness. -/
theorem aead_roundtrip {V : Type} (ser : Serializer V)
    (sb : SecretBoxLib) (bx : BoxLib) (ag : AesGcmLib)
    (sbKey boxSk aesKey : List Nat)
    (sbNonce ephSk boxNonce iv : List Nat) (x : V)
    (hser : ser.loads (ser.dumps x) = some x)
    (hsb : sb.decrypt sbKey (sb.encrypt sbKey (ser.dumps x) sbNonce) =
      some (ser.dumps x))
    (hpub : (bx.pub ephSk).length = 32)
    (hbnl : boxNonce.length = 24)
    (hbx : bx.openDetached boxSk (bx.pub ephSk) boxNonce
        (bx.sealDetached ephSk (bx.pub boxSk) (ser.dumps x) boxNonce) =
      some (ser.dumps x))
    (hag : ag.decrypt aesKey iv (ag.encrypt aesKey iv (ser.dumps x)) =
      some (ser.dumps x))
    (hivl : iv.length = 12) :
    secretBoxDecrypt ser sb sbKey
        (secretBoxEncrypt ser sb sbKey [sbNonce] [x]) = [some x]
      ∧ boxDecrypt ser bx boxSk
          (boxEncrypt ser bx (bx.pub boxSk) [(ephSk, boxNonce)] [x]) =
        [some x]
      ∧ aesDecrypt ser ag aesKey
          (aesEncrypt ser ag aesKey [iv] [x]) = [some x] := by
  refine ⟨?_, ?_, ?_⟩
  · simp only [secretBoxEncrypt, secretBoxDecrypt, List.zip_cons_cons,
      List.zip_nil_right, List.map_cons, List.map_nil,
      secretBoxEncryptItem, secretBoxDecryptItem, hsb, hser]
  · simp only [boxEncrypt, boxDecrypt, List.zip_cons_cons,
      List.zip_nil_right, List.map_cons, List.map_nil, boxEncryptItem,
      boxDecryptItem, boxEncryptCombined, boxDecryptCombined]
    rw [if_neg (not_append_len_lt _ _ 32 hpub),
      take_append_len _ _ 32 hpub, drop_append_len _ _ 32 hpub,
      if_neg (not_append_len_lt _ _ 24 hbnl),
      take_append_len _ _ 24 hbnl, drop_append_len _ _ 24 hbnl, hbx]
    show [ser.loads (ser.dumps x)] = [some x]
    rw [hser]
  · simp only [aesEncrypt, aesDecrypt, List.zip_cons_cons,
      List.zip_nil_right, List.map_cons, List.map_nil, aesEncryptItem,
      aesDecryptItem]
    rw [if_neg (by simp : ¬ (0 : Nat) ≠ 0),
      take_append_len _ _ 12 hivl, drop_append_len _ _ 12 hivl, hag]
    show [ser.loads (ser.dumps x)] = [some x]
    rw [hser]

/-! ### C3: decryption is defensive — version byte, malformed and
tampered inputs yield `none` -/

theorem aesDecryptItem_zero_cons {V : Type} (ser : Serializer V)
    (ag : AesGcmLib) (key rest : List Nat) :
    aesDecryptItem ser ag key (0 :: rest) =
      match ag.decrypt key (rest.take 12) (rest.drop 12) with
      | none => none
      | some pt => ser.loads pt := by
  rw [aesDecryptItem, if_neg (by simp : ¬ (0 : Nat) ≠ 0)]

theorem boxDecryptItem_split {V : Type} (ser : Serializer V) (bx : BoxLib)
    (sk pk rest : List Nat) (hpk : pk.length = 32) :
    boxDecryptItem ser bx sk (pk ++ rest) =
      match boxDecryptCombined bx sk pk rest with
      | none => none
      | some pt => ser.loads pt := by
  rw [boxDecryptItem, if_neg (not_append_len_lt _ _ 32 hpk),
    take_append_len _ _ 32 hpk, drop_append_len _ _ 32 hpk]

theorem boxDecryptCombined_split (bx : BoxLib) (sk pk n ct : List Nat)
    (hn : n.length = 24) :
    boxDecryptCombined bx sk pk (n ++ ct) = bx.openDetached sk pk n ct := by
  rw [boxDecryptCombined, if_neg (not_append_len_lt _ _ 24 hn),
    take_append_len _ _ 24 hn, drop_append_len _ _ 24 hn]

/-- C3: each scheme's `decrypt` is a total function into an option — in
the source every exception is caught and `None` appended — and it
returns `none` on every malformed or tampered input: an AES item that
is empty or whose version byte is non-zero is rejected by the framing
alone; a box item shorter than the 32-byte ephemeral public key is
rejected; and replacing any single byte of a valid ciphertext of any
of the three schemes (in the version byte, the IV/nonce region, the
ephemeral-public-key region, or the ciphertext/tag) by a different
byte value makes `decrypt` return `none`.  The hypotheses are the
authentication contracts of the external cipher cores: opening with a
one-byte-corrupted nonce, public key, or ciphertext fails. -/
theorem aead_tamper_rejection {V : Type} (ser : Serializer V)
    (sb : SecretBoxLib) (bx : BoxLib) (ag : AesGcmLib)
    (sbKey boxSk aesKey : List Nat)
    (sbNonce ephSk boxNonce iv : List Nat) (x : V)
    (hpub : (bx.pub ephSk).length = 32)
    (hbnl : boxNonce.length = 24)
    (hivl : iv.length = 12)
    (hsbT : ∀ i v, i < (sb.encrypt sbKey (ser.dumps x) sbNonce).length →
      v < 256 →
      (sb.encrypt sbKey (ser.dumps x) sbNonce).set i v ≠
        sb.encrypt sbKey (ser.dumps x) sbNonce →
      sb.decrypt sbKey ((sb.encrypt sbKey (ser.dumps x) sbNonce).set i v) =
        none)
    (hbxPk : ∀ i v, i < 32 → v < 256 →
      (bx.pub ephSk).set i v ≠ bx.pub ephSk →
      bx.openDetached boxSk ((bx.pub ephSk).set i v) boxNonce
        (bx.sealDetached ephSk (bx.pub boxSk) (ser.dumps x) boxNonce) = none)
    (hbxN : ∀ i v, i < 24 → v < 256 → boxNonce.set i v ≠ boxNonce →
      bx.openDetached boxSk (bx.pub ephSk) (boxNonce.set i v)
        (bx.sealDetached ephSk (bx.pub boxSk) (ser.dumps x) boxNonce) = none)
    (hbxT : ∀ i v,
      i < (bx.sealDetached ephSk (bx.pub boxSk) (ser.dumps x)
        boxNonce).length → v < 256 →
      (bx.sealDetached ephSk (bx.pub boxSk) (ser.dumps x) boxNonce).set i v ≠
        bx.sealDetached ephSk (bx.pub boxSk) (ser.dumps x) boxNonce →
      bx.openDetached boxSk (bx.pub ephSk) boxNonce
        ((bx.sealDetached ephSk (bx.pub boxSk) (ser.dumps x)
          boxNonce).set i v) = none)
    (hagN : ∀ i v, i < 12 → v < 256 → iv.set i v ≠ iv →
      ag.decrypt aesKey (iv.set i v)
        (ag.encrypt aesKey iv (ser.dumps x)) = none)
    (hagT : ∀ i v, i < (ag.encrypt aesKey iv (ser.dumps x)).length →
      v < 256 →
      (ag.encrypt aesKey iv (ser.dumps x)).set i v ≠
        ag.encrypt aesKey iv (ser.dumps x) →
      ag.decrypt aesKey iv
        ((ag.encrypt aesKey iv (ser.dumps x)).set i v) = none) :
    aesDecryptItem ser ag aesKey [] = none
      ∧ (∀ b rest, b ≠ 0 → aesDecryptItem ser ag aesKey (b :: rest) = none)
      ∧ (∀ item, item.length < 32 → boxDecryptItem ser bx boxSk item = none)
      ∧ (∀ i v, i < (secretBoxEncryptItem ser sb sbKey sbNonce x).length →
        v < 256 →
        (secretBoxEncryptItem ser sb sbKey sbNonce x).set i v ≠
          secretBoxEncryptItem ser sb sbKey sbNonce x →
        secretBoxDecryptItem ser sb sbKey
          ((secretBoxEncryptItem ser sb sbKey sbNonce x).set i v) = none)
      ∧ (∀ i v, i < (aesEncryptItem ser ag aesKey iv x).length → v < 256 →
        (aesEncryptItem ser ag aesKey iv x).set i v ≠
          aesEncryptItem ser ag aesKey iv x →
        aesDecryptItem ser ag aesKey
          ((aesEncryptItem ser ag aesKey iv x).set i v) = none)
      ∧ (∀ i v,
        i < (boxEncryptItem ser bx (bx.pub boxSk) ephSk boxNonce x).length →
        v < 256 →
        (boxEncryptItem ser bx (bx.pub boxSk) ephSk boxNonce x).set i v ≠
          boxEncryptItem ser bx (bx.pub boxSk) ephSk boxNonce x →
        boxDecryptItem ser bx boxSk
          ((boxEncryptItem ser bx (bx.pub boxSk) ephSk boxNonce x).set i v) =
          none) := by
  refine ⟨rfl, ?_, ?_, ?_, ?_, ?_⟩
  · intro b rest hb
    rw [aesDecryptItem, if_pos hb]
  · intro item hml
    rw [boxDecryptItem, if_pos hml]
  · intro i v hi hv hne
    simp only [secretBoxEncryptItem] at hi hne ⊢
    rw [secretBoxDecryptItem, hsbT i v hi hv hne]
  · intro i v hi hv hne
    rw [aesEncryptItem] at hi hne ⊢
    match i with
    | 0 =>
        rw [List.set_cons_zero] at hne ⊢
        have hv0 : v ≠ 0 := by
          intro h0
          exact hne (by rw [h0])
        rw [aesDecryptItem, if_pos hv0]
    | j + 1 =>
        rw [List.set_cons_succ] at hne ⊢
        rw [List.length_cons, Nat.add_lt_add_iff_right,
          List.length_append, hivl] at hi
        by_cases hj : j < 12
        · have hj' : j < iv.length := by rw [hivl]; exact hj
          rw [List.set_append_left j v hj'] at hne ⊢
          rw [aesDecryptItem_zero_cons,
            take_append_len _ _ 12 (by rw [List.length_set, hivl]),
            drop_append_len _ _ 12 (by rw [List.length_set, hivl])]
          have hneiv : iv.set j v ≠ iv := by
            intro he
            exact hne (by rw [he])
          rw [hagN j v hj hv hneiv]
        · have hj' : iv.length ≤ j := by rw [hivl]; omega
          rw [List.set_append_right j v hj'] at hne ⊢
          rw [aesDecryptItem_zero_cons,
            take_append_len _ _ 12 hivl, drop_append_len _ _ 12 hivl]
          have hbound : j - iv.length <
              (ag.encrypt aesKey iv (ser.dumps x)).length := by
            rw [hivl]; omega
          have hnect : (ag.encrypt aesKey iv (ser.dumps x)).set
              (j - iv.length) v ≠ ag.encrypt aesKey iv (ser.dumps x) := by
            intro he
            exact hne (by rw [he])
          rw [hagT (j - iv.length) v hbound hv hnect]
  · intro i v hi hv hne
    rw [boxEncryptItem, boxEncryptCombined] at hi hne ⊢
    rw [List.length_append, List.length_append, hpub, hbnl] at hi
    by_cases hi32 : i < 32
    · have hi32' : i < (bx.pub ephSk).length := by rw [hpub]; exact hi32
      rw [List.set_append_left i v hi32'] at hne ⊢
      rw [boxDecryptItem_split _ _ _ _ _ (by rw [List.length_set, hpub]),
        boxDecryptCombined_split _ _ _ _ _ hbnl]
      have hnepk : (bx.pub ephSk).set i v ≠ bx.pub ephSk := by
        intro he
        exact hne (by rw [he])
      rw [hbxPk i v hi32 hv hnepk]
    · have hi32' : (bx.pub ephSk).length ≤ i := by rw [hpub]; omega
      rw [List.set_append_right i v hi32'] at hne ⊢
      rw [boxDecryptItem_split _ _ _ _ _ hpub]
      by_cases hi56 : i - (bx.pub ephSk).length < 24
      · have hlt : i - (bx.pub ephSk).length < boxNonce.length := by
          rw [hbnl]; exact hi56
        rw [List.set_append_left _ v hlt] at hne ⊢
        rw [boxDecryptCombined_split _ _ _ _ _
          (by rw [List.length_set, hbnl])]
        have hnen : boxNonce.set (i - (bx.pub ephSk).length) v ≠
            boxNonce := by
          intro he
          exact hne (by rw [he])
        rw [hbxN (i - (bx.pub ephSk).length) v hi56 hv hnen]
      · have hge : boxNonce.length ≤ i - (bx.pub ephSk).length := by
          rw [hbnl]; omega
        rw [List.set_append_right _ v hge] at hne ⊢
        rw [boxDecryptCombined_split _ _ _ _ _ hbnl]
        have hbound : i - (bx.pub ephSk).length - boxNonce.length <
            (bx.sealDetached ephSk (bx.pub boxSk) (ser.dumps x)
              boxNonce).length := by
          rw [hpub] at hi32' ⊢
          rw [hbnl]
          omega
        have hnes : (bx.sealDetached ephSk (bx.pub boxSk) (ser.dumps x)
            boxNonce).set (i - (bx.pub ephSk).length - boxNonce.length) v ≠
            bx.sealDetached ephSk (bx.pub boxSk) (ser.dumps x) boxNonce := by
          intro he
          exact hne (by rw [he])
        rw [hbxT _ v hbound hv hnes]

theorem aead_tamper_rejection_witness :
    aesDecryptItem (Serializer.mk id some)
        (AesGcmLib.mk (fun _ _ pt => pt) (fun _ _ _ => none))
        (List.replicate 32 8)
        ((aesEncryptItem (Serializer.mk id some)
          (AesGcmLib.mk (fun _ _ pt => pt) (fun _ _ _ => none))
          (List.replicate 32 8) (List.replicate 12 7) [1, 2, 3]).set 0 1) =
      none
      ∧ aesDecryptItem (Serializer.mk id some)
          (AesGcmLib.mk (fun _ _ pt => pt) (fun _ _ _ => none))
          (List.replicate 32 8)
          ((aesEncryptItem (Serializer.mk id some)
            (AesGcmLib.mk (fun _ _ pt => pt) (fun _ _ _ => none))
            (List.replicate 32 8) (List.replicate 12 7)
            [1, 2, 3]).set 14 9) =
        none
      ∧ boxDecryptItem (Serializer.mk id some)
          (BoxLib.mk id (fun _ _ pt _ => pt) (fun _ _ _ _ => none))
          (List.replicate 32 4)
          ((boxEncryptItem (Serializer.mk id some)
            (BoxLib.mk id (fun _ _ pt _ => pt) (fun _ _ _ _ => none))
            ((BoxLib.mk id (fun _ _ pt _ => pt)
              (fun _ _ _ _ => none)).pub (List.replicate 32 4))
            (List.replicate 32 1) (List.replicate 24 2)
            [1, 2, 3]).set 0 9) =
        none
      ∧ secretBoxDecryptItem (Serializer.mk id some)
          (SecretBoxLib.mk (fun _ pt _ => pt) (fun _ _ => none))
          (List.replicate 32 9)
          ((secretBoxEncryptItem (Serializer.mk id some)
            (SecretBoxLib.mk (fun _ pt _ => pt) (fun _ _ => none))
            (List.replicate 32 9) (List.replicate 24 5)
            [1, 2, 3]).set 1 8) =
        none :=
  have T := aead_tamper_rejection (Serializer.mk id some)
    (SecretBoxLib.mk (fun _ pt _ => pt) (fun _ _ => none))
    (BoxLib.mk id (fun _ _ pt _ => pt) (fun _ _ _ _ => none))
    (AesGcmLib.mk (fun _ _ pt => pt) (fun _ _ _ => none))
    (List.replicate 32 9) (List.replicate 32 4) (List.replicate 32 8)
    (List.replicate 24 5) (List.replicate 32 1) (List.replicate 24 2)
    (List.replicate 12 7) [1, 2, 3]
    (by simp) (by simp) (by simp)
    (fun _ _ _ _ _ => rfl) (fun _ _ _ _ _ => rfl)
    (fun _ _ _ _ _ => rfl) (fun _ _ _ _ _ => rfl)
    (fun _ _ _ _ _ => rfl) (fun _ _ _ _ _ => rfl)
  ⟨T.2.2.2.2.1 0 1 (by decide) (by decide) (by decide),
   T.2.2.2.2.1 14 9 (by decide) (by decide) (by decide),
   T.2.2.2.2.2 0 9 (by decide) (by decide) (by decide),
   T.2.2.2.1 1 8 (by decide) (by decide) (by decide)⟩

theorem aead_roundtrip_witness :
    secretBoxDecrypt (Serializer.mk id some)
        (SecretBoxLib.mk (fun _ pt _ => pt) (fun _ item => some item))
        (List.replicate 32 9)
        (secretBoxEncrypt (Serializer.mk id some)
          (SecretBoxLib.mk (fun _ pt _ => pt) (fun _ item => some item))
          (List.replicate 32 9) [List.replicate 24 5] [[1, 2, 3]]) =
      [some [1, 2, 3]]
      ∧ boxDecrypt (Serializer.mk id some)
          (BoxLib.mk id (fun _ _ pt _ => pt) (fun _ _ _ ct => some ct))
          (List.replicate 32 4)
          (boxEncrypt (Serializer.mk id some)
            (BoxLib.mk id (fun _ _ pt _ => pt) (fun _ _ _ ct => some ct))
            ((BoxLib.mk id (fun _ _ pt _ => pt)
              (fun _ _ _ ct => some ct)).pub (List.replicate 32 4))
            [(List.replicate 32 1, List.replicate 24 2)] [[1, 2, 3]]) =
        [some [1, 2, 3]]
      ∧ aesDecrypt (Serializer.mk id some)
          (AesGcmLib.mk (fun _ _ pt => pt) (fun _ _ ct => some ct))
          (List.replicate 32 8)
          (aesEncrypt (Serializer.mk id some)
            (AesGcmLib.mk (fun _ _ pt => pt) (fun _ _ ct => some ct))
            (List.replicate 32 8) [List.replicate 12 7] [[1, 2, 3]]) =
        [some [1, 2, 3]] :=
  aead_roundtrip (Serializer.mk id some)
    (SecretBoxLib.mk (fun _ pt _ => pt) (fun _ item => some item))
    (BoxLib.mk id (fun _ _ pt _ => pt) (fun _ _ _ ct => some ct))
    (AesGcmLib.mk (fun _ _ pt => pt) (fun _ _ ct => some ct))
    (List.replicate 32 9) (List.replicate 32 4) (List.replicate 32 8)
    (List.replicate 24 5) (List.replicate 32 1) (List.replicate 24 2)
    (List.replicate 12 7) [1, 2, 3]
    rfl rfl (by simp) (by simp) rfl rfl (by simp)

/-! ### C4: session-key wrap/unwrap round trip -/

/-- C4: unwrapping a wrapped 32-byte session key round-trips:
`decrypt_key(b64encode(encrypt_key(k))) = k`, where the wrapped bytes
are the leading `0x00` version byte followed by
`ephemeral_public_key(32) ++ nonce(24) ++ ciphertext`; and
`decrypt_key` returns `none` whenever the base64-decoded input has a
non-zero version byte, is too short to contain the version byte, the
ephemeral public key and the nonce (fewer than 57 bytes), or fails to
base64-decode at all.  The hypotheses are the NaCl box round-trip
contract at the used keys and the base64 round-trip contract. -/
theorem key_wrap_roundtrip (bx : BoxLib) (b64 : B64)
    (contentSk ephSk nonce k : List Nat)
    (hpub : (bx.pub ephSk).length = 32)
    (hnl : nonce.length = 24)
    (hsound : bx.openDetached contentSk (bx.pub ephSk) nonce
      (bx.sealDetached ephSk (bx.pub contentSk) k nonce) = some k)
    (hb64 : b64.decode (b64.encode
        (encryptEncryptionKey bx (bx.pub contentSk) ephSk nonce k)) =
      some (encryptEncryptionKey bx (bx.pub contentSk) ephSk nonce k)) :
    decryptEncryptionKey b64 bx contentSk
        (b64.encode (encryptEncryptionKey bx (bx.pub contentSk) ephSk
          nonce k)) = some k
      ∧ (∀ s v rest, b64.decode s = some (v :: rest) → v ≠ 0 →
        decryptEncryptionKey b64 bx contentSk s = none)
      ∧ (∀ s l, b64.decode s = some l → l.length < 57 →
        decryptEncryptionKey b64 bx contentSk s = none)
      ∧ (∀ s, b64.decode s = none →
        decryptEncryptionKey b64 bx contentSk s = none) := by
  refine ⟨?_, ?_, ?_, ?_⟩
  · simp only [decryptEncryptionKey]
    rw [hb64]
    simp only [encryptEncryptionKey, boxEncryptCombined]
    have hlen : (bx.pub ephSk ++ (nonce ++ bx.sealDetached ephSk
        (bx.pub contentSk) k nonce)).length =
        56 + (bx.sealDetached ephSk (bx.pub contentSk) k nonce).length := by
      rw [List.length_append, List.length_append, hpub, hnl]
      omega
    have hd56 : (bx.pub ephSk ++ (nonce ++ bx.sealDetached ephSk
        (bx.pub contentSk) k nonce)).drop 56 =
        bx.sealDetached ephSk (bx.pub contentSk) k nonce := by
      have h1 : (56 : Nat) = 32 + 24 := by omega
      rw [h1, ← List.drop_drop, drop_append_len _ _ 32 hpub,
        drop_append_len _ _ 24 hnl]
    rw [if_neg (by simp : ¬ (0 : Nat) ≠ 0),
      if_neg (by rw [hlen]; omega), if_neg (by rw [hlen]; omega),
      take_append_len _ _ 32 hpub, drop_append_len _ _ 32 hpub,
      take_append_len _ _ 24 hnl, hd56, hsound]
  · intro s v rest hdec hv
    simp only [decryptEncryptionKey, hdec]
    rw [if_pos hv]
  · intro s l hdec hlen
    match l, hlen with
    | [], _ => simp only [decryptEncryptionKey, hdec]
    | v :: rest, hlen =>
        simp only [decryptEncryptionKey, hdec]
        by_cases hv : v ≠ 0
        · rw [if_pos hv]
        · rw [if_neg hv]
          rw [List.length_cons] at hlen
          by_cases h32 : rest.length < 32
          · rw [if_pos h32]
          · rw [if_neg h32, if_pos (by omega)]
  · intro s hdec
    simp only [decryptEncryptionKey, hdec]

theorem key_wrap_roundtrip_witness :
    decryptEncryptionKey
        (B64.mk (fun l => String.mk (l.map Char.ofNat))
          (fun s => some (s.data.map Char.toNat)))
        (BoxLib.mk id (fun _ _ pt _ => pt) (fun _ _ _ ct => some ct))
        (List.replicate 32 4)
        ((B64.mk (fun l => String.mk (l.map Char.ofNat))
          (fun s => some (s.data.map Char.toNat))).encode
          (encryptEncryptionKey
            (BoxLib.mk id (fun _ _ pt _ => pt) (fun _ _ _ ct => some ct))
            ((BoxLib.mk id (fun _ _ pt _ => pt)
              (fun _ _ _ ct => some ct)).pub (List.replicate 32 4))
            (List.replicate 32 1) (List.replicate 24 2)
            (List.replicate 32 3))) =
      some (List.replicate 32 3)
      ∧ decryptEncryptionKey
          (B64.mk (fun l => String.mk (l.map Char.ofNat))
            (fun s => some (s.data.map Char.toNat)))
          (BoxLib.mk id (fun _ _ pt _ => pt) (fun _ _ _ ct => some ct))
          (List.replicate 32 4)
          ((B64.mk (fun l => String.mk (l.map Char.ofNat))
            (fun s => some (s.data.map Char.toNat))).encode [1, 9]) =
        none
      ∧ decryptEncryptionKey
          (B64.mk (fun l => String.mk (l.map Char.ofNat))
            (fun s => some (s.data.map Char.toNat)))
          (BoxLib.mk id (fun _ _ pt _ => pt) (fun _ _ _ ct => some ct))
          (List.replicate 32 4)
          ((B64.mk (fun l => String.mk (l.map Char.ofNat))
            (fun s => some (s.data.map Char.toNat))).encode
            (0 :: List.replicate 30 1)) =
        none :=
  have T := key_wrap_roundtrip
    (BoxLib.mk id (fun _ _ pt _ => pt) (fun _ _ _ ct => some ct))
    (B64.mk (fun l => String.mk (l.map Char.ofNat))
      (fun s => some (s.data.map Char.toNat)))
    (List.replicate 32 4) (List.replicate 32 1) (List.replicate 24 2)
    (List.replicate 32 3)
    (by simp) (by simp) rfl (by decide)
  ⟨T.1,
   T.2.1 _ 1 [9] (by decide) (by decide),
   T.2.2.1 _ (0 :: List.replicate 30 1) (by decide) (by decide)⟩

/-! ### C10: `MessageBus.query` rejects non-Query messages atomically -/

/-- C10: for every bus state and every message whose type is not QUERY,
`MessageBus.query` raises `ValueError` before any side effect: no
pending entry is created, nothing is sent, and the state (message log,
pending-responses map, handlers, dispatch list) is returned exactly as
it was. -/
theorem query_rejects_non_query (st : BusState) (m : Msg)
    (h : m.type ≠ .query) :
    busQueryStart st m =
      (some "ValueError: Only QUERY messages can await responses", st) := by
  rw [busQueryStart, if_pos h]

theorem query_rejects_non_query_witness :
    (Msg.mk "n1" .notification "alice" (some "bob") "hi" none).type ≠
        BusMessageType.query
      ∧ busQueryStart (BusState.mk ["bob"] [] [] [])
          (Msg.mk "n1" .notification "alice" (some "bob") "hi" none) =
        (some "ValueError: Only QUERY messages can await responses",
          BusState.mk ["bob"] [] [] []) :=
  ⟨by decide,
   query_rejects_non_query (BusState.mk ["bob"] [] [] [])
     (Msg.mk "n1" .notification "alice" (some "bob") "hi" none) (by decide)⟩

/-! ### C7: default correlation ids of Query constructors -/

/-- Counterexample to C7 as stated: a protocol `QueryMessage` built
without an explicit correlation_id (its `id` and `correlation_id`
coming from the two independent uuid4 draws, here `"uuid-0"` and
`"uuid-1"`) has `correlation_id ≠ id`. -/
theorem queryMessage_correlation_id_ne_id :
    (queryMessageCreate "uuid-0" "uuid-1" "frontend" "backend"
        "hi").correlationId ≠
      some (queryMessageCreate "uuid-0" "uuid-1" "frontend" "backend"
        "hi").id := by
  decide

/-- C7 (amended): the bus `Message.query` constructor reuses the single
generated uuid as both id and correlation_id, so `correlation_id = id`;
the protocol `QueryMessage` model fills `correlation_id` from a second,
independent uuid4 draw, so whenever the two draws differ (as distinct
uuid4 values do) `correlation_id ≠ id`. -/
theorem query_correlation_id_defaults (u source target content : String)
    (u1 u2 fromPeer toPeer text : String) (h : u1 ≠ u2) :
    (busMessageQuery u source target content).correlationId =
        some (busMessageQuery u source target content).id
      ∧ (queryMessageCreate u1 u2 fromPeer toPeer text).correlationId ≠
        some (queryMessageCreate u1 u2 fromPeer toPeer text).id := by
  refine ⟨rfl, ?_⟩
  intro he
  exact h (Option.some_inj.mp he).symm

theorem query_correlation_id_defaults_witness :
    ("uuid-0" : String) ≠ "uuid-1"
      ∧ ((busMessageQuery "uuid-7" "alice" "bob" "ping").correlationId =
          some (busMessageQuery "uuid-7" "alice" "bob" "ping").id
        ∧ (queryMessageCreate "uuid-0" "uuid-1" "alice" "bob"
            "ping").correlationId ≠
          some (queryMessageCreate "uuid-0" "uuid-1" "alice" "bob"
            "ping").id) :=
  ⟨by decide,
   query_correlation_id_defaults "uuid-7" "alice" "bob" "ping"
     "uuid-0" "uuid-1" "alice" "bob" "ping" (by decide)⟩

/-! ### C5: `initialize_session` is last-write-wins, not idempotent -/

/-- Counterexample to C5 as stated: initialize session `"s"` without a
key (legacy scheme), then again with key `[1]`; `get_session` now
returns the AES-keyed session built from the later key, not the
originally cached legacy instance. -/
theorem initialize_session_not_idempotent :
    getSessionEncryption
        (initializeSession
          (initializeSession (HappyEncState.mk []) "s" none).2
          "s" (some [1])).2 "s" ≠
      some (initializeSession (HappyEncState.mk []) "s" none).1 := by
  decide

/-- C5 (amended): `initialize_session` is last-write-wins per
session_id: after initializing a session twice, `get_session` returns
the `SessionEncryption` built from the second call's key (legacy when
that key is absent, AES-256-GCM keyed by it otherwise), regardless of
the first call. -/
theorem initialize_session_last_write_wins (st : HappyEncState)
    (sessionId : String) (k1 k2 : Option (List Nat)) :
    getSessionEncryption
        (initializeSession (initializeSession st sessionId k1).2
          sessionId k2).2 sessionId =
      some (initializeSession (initializeSession st sessionId k1).2
        sessionId k2).1 := by
  cases k2 <;>
    simp only [initializeSession, getSessionEncryption,
      dictGet_dictSet_self]

/-! ### C9: peer registration is last-write-wins -/

/-- C9: registering a peer under an already-registered name replaces
the existing entry: with unique registry keys (a Python dict
invariant), after registering `p1` and then `p2` with `p1.name =
p2.name`, exactly one binding carries that name and it holds `p2`;
`get` returns `p2`; the registry has not grown (the second registration
replaced, rather than added, an entry); and the snapshot returned by
the second `register` contains `p2`. -/
theorem registry_register_last_write_wins (reg : List (String × Peer))
    (p1 p2 : Peer) (hname : p1.name = p2.name) (hnd : keysNodup reg) :
    ((registryRegister (registryRegister reg p1).2 p2).2).filter
        (fun kv => kv.1 = p2.name) = [(p2.name, p2)]
      ∧ registryGet (registryRegister (registryRegister reg p1).2 p2).2
          p2.name = some p2
      ∧ ((registryRegister (registryRegister reg p1).2 p2).2).length =
        ((registryRegister reg p1).2).length
      ∧ p2 ∈ (registryRegister (registryRegister reg p1).2 p2).1 := by
  have hnd1 : keysNodup (dictSet reg p1.name p1) :=
    keysNodup_dictSet reg p1.name p1 hnd
  have hfil := filter_dictSet_eq_key (dictSet reg p1.name p1) p2.name p2 hnd1
  refine ⟨hfil, dictGet_dictSet_self _ _ _,
    length_dictSet_of_mem_keys _ _ _
      (hname ▸ mem_keys_dictSet_self reg p1.name p1), ?_⟩
  have hmem : (p2.name, p2) ∈
      dictSet (dictSet reg p1.name p1) p2.name p2 := by
    have : (p2.name, p2) ∈
        (dictSet (dictSet reg p1.name p1) p2.name p2).filter
          (fun kv => kv.1 = p2.name) := by
      rw [hfil]; exact List.mem_singleton.mpr rfl
    exact List.mem_of_mem_filter this
  exact List.mem_map.mpr ⟨(p2.name, p2), hmem, rfl⟩

theorem registry_register_last_write_wins_witness :
    (Peer.mk "backend" "happy" "sess-1" "/a" [] 0 true).name =
        (Peer.mk "backend" "happy" "sess-2" "/a" [] 1 true).name
      ∧ keysNodup ([] : List (String × Peer))
      ∧ (((registryRegister
            (registryRegister []
              (Peer.mk "backend" "happy" "sess-1" "/a" [] 0 true)).2
            (Peer.mk "backend" "happy" "sess-2" "/a" [] 1 true)).2).filter
            (fun kv => kv.1 =
              (Peer.mk "backend" "happy" "sess-2" "/a" [] 1 true).name) =
          [((Peer.mk "backend" "happy" "sess-2" "/a" [] 1 true).name,
            Peer.mk "backend" "happy" "sess-2" "/a" [] 1 true)]
        ∧ registryGet (registryRegister
            (registryRegister []
              (Peer.mk "backend" "happy" "sess-1" "/a" [] 0 true)).2
            (Peer.mk "backend" "happy" "sess-2" "/a" [] 1 true)).2
            (Peer.mk "backend" "happy" "sess-2" "/a" [] 1 true).name =
          some (Peer.mk "backend" "happy" "sess-2" "/a" [] 1 true)
        ∧ ((registryRegister
            (registryRegister []
              (Peer.mk "backend" "happy" "sess-1" "/a" [] 0 true)).2
            (Peer.mk "backend" "happy" "sess-2" "/a" [] 1 true)).2).length =
          ((registryRegister []
            (Peer.mk "backend" "happy" "sess-1" "/a" [] 0 true)).2).length
        ∧ (Peer.mk "backend" "happy" "sess-2" "/a" [] 1 true) ∈
          (registryRegister
            (registryRegister []
              (Peer.mk "backend" "happy" "sess-1" "/a" [] 0 true)).2
            (Peer.mk "backend" "happy" "sess-2" "/a" [] 1 true)).1) :=
  ⟨rfl, List.nodup_nil,
   registry_register_last_write_wins []
     (Peer.mk "backend" "happy" "sess-1" "/a" [] 0 true)
     (Peer.mk "backend" "happy" "sess-2" "/a" [] 1 true) rfl
     List.nodup_nil⟩

/-! ### C8: broadcast fan-out with partial-failure collection -/

theorem broadcastLoop_spec (send : Peer → Except String Unit)
    (caller : String) (peers : List Peer) :
    (broadcastLoop send caller peers).1 =
        peers.filterMap (fun p =>
          if p.name = caller then none
          else match send p with
            | .ok _ => some p.name
            | .error _ => none)
      ∧ (broadcastLoop send caller peers).2 =
        peers.filterMap (fun p =>
          if p.name = caller then none
          else match send p with
            | .ok _ => none
            | .error e => some (p.name ++ ": " ++ e)) := by
  induction peers with
  | nil => exact ⟨rfl, rfl⟩
  | cons p rest ih =>
      by_cases hp : p.name = caller
      · simpa [broadcastLoop, hp] using ih
      · rcases hsend : send p with u | e
        · simpa [broadcastLoop, hp, hsend] using ih
        · simpa [broadcastLoop, hp, hsend] using ih

/-- C8: `broadcast` sends the formatted notification to exactly the
registered peers whose name differs from the caller, in registry order:
the `notified` list is the names of those for which the transport
succeeded, the `errors` list collects `"name: error"` for those whose
transport raised (the loop catches every exception, so `broadcast`
itself never raises — it is a total function into a result triple),
`success` is emptiness of `errors`, and the caller never appears among
the notified.  In particular, with three non-caller peers of which
exactly one transport raises, it reports two successes and the single
failure. -/
theorem broadcast_fanout (reg : List (String × Peer))
    (caller message : String) (send : Peer → String → Except String Unit) :
    (meshBroadcast reg caller message send).1 =
        (registryListAll reg).filterMap (fun p =>
          if p.name = caller then none
          else match send p (broadcastFormat caller message) with
            | .ok _ => some p.name
            | .error _ => none)
      ∧ (meshBroadcast reg caller message send).2.1 =
        (registryListAll reg).filterMap (fun p =>
          if p.name = caller then none
          else match send p (broadcastFormat caller message) with
            | .ok _ => none
            | .error e => some (p.name ++ ": " ++ e))
      ∧ (meshBroadcast reg caller message send).2.2 =
        ((meshBroadcast reg caller message send).2.1).isEmpty
      ∧ caller ∉ (meshBroadcast reg caller message send).1
      ∧ meshBroadcast
          [("p1", Peer.mk "p1" "happy" "s1" "/a" [] 0 true),
           ("p2", Peer.mk "p2" "happy" "s2" "/b" [] 0 true),
           ("p3", Peer.mk "p3" "opencode" "s3" "/c" [] 0 true)]
          "me" "deploy"
          (fun p _ => if p.name = "p2" then .error "boom" else .ok ()) =
        (["p1", "p3"], ["p2: boom"], false) := by
  obtain ⟨h1, h2⟩ := broadcastLoop_spec
    (fun p => send p (broadcastFormat caller message)) caller
    (registryListAll reg)
  refine ⟨h1, h2, rfl, ?_, by decide⟩
  rw [meshBroadcast]
  intro hmem
  rw [h1] at hmem
  rcases List.mem_filterMap.mp hmem with ⟨p, _, hp⟩
  by_cases hpc : p.name = caller
  · rw [if_pos hpc] at hp
    exact Option.noConfusion hp
  · rw [if_neg hpc] at hp
    rcases hsend : send p (broadcastFormat caller message) with e | u <;>
      rw [hsend] at hp
    · exact Option.noConfusion hp
    · exact hpc (Option.some_inj.mp hp)

/-! ### C6: correlation is at most once, but a premature second
response raises -/

theorem busSend_response_waiting (st : BusState) (m : Msg) (cid : String)
    (hm : m.type = .response) (hk : responseKey m = some cid)
    (hpend : dictGet st.pending cid = some .waiting) :
    busSend st m = (none,
      { st with log := st.log ++ [m],
                pending := dictSet st.pending cid (.done m) }) := by
  rw [busSend, hm, hk]
  simp only [hpend]

theorem busSend_response_done (st : BusState) (m m0 : Msg) (cid : String)
    (hm : m.type = .response) (hk : responseKey m = some cid)
    (hpend : dictGet st.pending cid = some (.done m0)) :
    busSend st m = (some "InvalidStateError",
      { st with log := st.log ++ [m] }) := by
  rw [busSend, hm, hk]
  simp only [hpend]

theorem busSend_response_missing (st : BusState) (m : Msg) (cid : String)
    (hm : m.type = .response) (hk : responseKey m = some cid)
    (hpend : dictGet st.pending cid = none) :
    busSend st m = (none, { st with log := st.log ++ [m] }) := by
  rw [busSend, hm, hk]
  simp only [hpend]

/-- Counterexample to C6 as stated: issue a query (creating the pending
entry), deliver a first response — the entry resolves — then deliver a
second response with the same correlation id before the caller has
consumed the first: `MessageBus.send` does not silently drop it, it
raises (`Future.set_result` on an already-fulfilled future throws
`InvalidStateError`). -/
theorem second_response_before_consume_raises :
    (busSend
        (busSend
          (busQueryStart (BusState.mk ["bob"] [] [] [])
            (busMessageQuery "q1" "alice" "bob" "hello")).2
          (busMessageResponse "r1" "bob" "alice" "first" "q1")).2
        (busMessageResponse "r2" "bob" "alice" "second" "q1")).1 ≠
      none := by
  decide

/-- C6 (amended): with a waiting pending entry for `cid` (unique dict
keys), delivering a first response fulfils the entry with that
response; the caller then consumes exactly the first response's
payload; a second response with the same correlation id delivered
after consumption is silently dropped (no error, pending map
unchanged) — but a second response delivered before consumption
raises `InvalidStateError` (leaving the stored first response intact)
rather than being silently ignored. -/
theorem correlation_at_most_once (st : BusState)
    (cid u1 s1 t1 c1 u2 s2 t2 c2 : String)
    (hcid : cid ≠ "") (hpend : dictGet st.pending cid = some .waiting)
    (hnd : keysNodup st.pending) :
    (busSend st (busMessageResponse u1 s1 t1 c1 cid)).1 = none
      ∧ dictGet
          (busSend st (busMessageResponse u1 s1 t1 c1 cid)).2.pending cid =
        some (.done (busMessageResponse u1 s1 t1 c1 cid))
      ∧ (busSend (busSend st (busMessageResponse u1 s1 t1 c1 cid)).2
          (busMessageResponse u2 s2 t2 c2 cid)).1 = some "InvalidStateError"
      ∧ (busSend (busSend st (busMessageResponse u1 s1 t1 c1 cid)).2
          (busMessageResponse u2 s2 t2 c2 cid)).2.pending =
        (busSend st (busMessageResponse u1 s1 t1 c1 cid)).2.pending
      ∧ (busConsume (busSend (busSend st
          (busMessageResponse u1 s1 t1 c1 cid)).2
          (busMessageResponse u2 s2 t2 c2 cid)).2 cid).1 =
        some (busMessageResponse u1 s1 t1 c1 cid)
      ∧ (busSend (busConsume (busSend (busSend st
          (busMessageResponse u1 s1 t1 c1 cid)).2
          (busMessageResponse u2 s2 t2 c2 cid)).2 cid).2
          (busMessageResponse u2 s2 t2 c2 cid)).1 = none
      ∧ (busSend (busConsume (busSend (busSend st
          (busMessageResponse u1 s1 t1 c1 cid)).2
          (busMessageResponse u2 s2 t2 c2 cid)).2 cid).2
          (busMessageResponse u2 s2 t2 c2 cid)).2.pending =
        (busConsume (busSend (busSend st
          (busMessageResponse u1 s1 t1 c1 cid)).2
          (busMessageResponse u2 s2 t2 c2 cid)).2 cid).2.pending := by
  have hrk1 : responseKey (busMessageResponse u1 s1 t1 c1 cid) = some cid := by
    rw [responseKey, busMessageResponse]
    simp only [if_neg hcid]
  have hrk2 : responseKey (busMessageResponse u2 s2 t2 c2 cid) = some cid := by
    rw [responseKey, busMessageResponse]
    simp only [if_neg hcid]
  have h1 := busSend_response_waiting st
    (busMessageResponse u1 s1 t1 c1 cid) cid rfl hrk1 hpend
  rw [h1]
  have hget : dictGet (dictSet st.pending cid
      (Fut.done (busMessageResponse u1 s1 t1 c1 cid))) cid =
      some (.done (busMessageResponse u1 s1 t1 c1 cid)) :=
    dictGet_dictSet_self _ _ _
  have h2 := busSend_response_done
    { st with log := st.log ++ [busMessageResponse u1 s1 t1 c1 cid],
              pending := dictSet st.pending cid
                (.done (busMessageResponse u1 s1 t1 c1 cid)) }
    (busMessageResponse u2 s2 t2 c2 cid)
    (busMessageResponse u1 s1 t1 c1 cid) cid rfl hrk2 hget
  rw [h2]
  have hnd2 : keysNodup (dictSet st.pending cid
      (Fut.done (busMessageResponse u1 s1 t1 c1 cid))) :=
    keysNodup_dictSet _ _ _ hnd
  have hpop : dictGet (dictPop (dictSet st.pending cid
      (Fut.done (busMessageResponse u1 s1 t1 c1 cid))) cid) cid = none :=
    dictGet_dictPop_self _ _ hnd2
  have h3 := busSend_response_missing
    { log := st.log ++ [busMessageResponse u1 s1 t1 c1 cid] ++
        [busMessageResponse u2 s2 t2 c2 cid],
      handlers := st.handlers,
      dispatched := st.dispatched,
      pending := dictPop (dictSet st.pending cid
        (.done (busMessageResponse u1 s1 t1 c1 cid))) cid }
    (busMessageResponse u2 s2 t2 c2 cid) cid rfl hrk2 hpop
  refine ⟨rfl, hget, rfl, rfl, ?_, ?_, ?_⟩
  · rw [busConsume]
    simp only [hget]
  · rw [busConsume]
    exact congrArg Prod.fst h3
  · rw [busConsume]
    exact congrArg (fun x => x.2.pending) h3

theorem correlation_at_most_once_witness :
    ("q1" : String) ≠ ""
      ∧ dictGet (BusState.mk [] [("q1", Fut.waiting)] [] []).pending "q1" =
        some .waiting
      ∧ keysNodup (BusState.mk [] [("q1", Fut.waiting)] [] []).pending
      ∧ ((busSend (BusState.mk [] [("q1", Fut.waiting)] [] [])
            (busMessageResponse "r1" "bob" "alice" "first" "q1")).1 = none
        ∧ dictGet (busSend (BusState.mk [] [("q1", Fut.waiting)] [] [])
            (busMessageResponse "r1" "bob" "alice" "first" "q1")).2.pending
            "q1" =
          some (.done (busMessageResponse "r1" "bob" "alice" "first" "q1"))
        ∧ (busSend (busSend (BusState.mk [] [("q1", Fut.waiting)] [] [])
            (busMessageResponse "r1" "bob" "alice" "first" "q1")).2
            (busMessageResponse "r2" "bob" "alice" "second" "q1")).1 =
          some "InvalidStateError"
        ∧ (busSend (busSend (BusState.mk [] [("q1", Fut.waiting)] [] [])
            (busMessageResponse "r1" "bob" "alice" "first" "q1")).2
            (busMessageResponse "r2" "bob" "alice" "second" "q1")).2.pending =
          (busSend (BusState.mk [] [("q1", Fut.waiting)] [] [])
            (busMessageResponse "r1" "bob" "alice" "first" "q1")).2.pending
        ∧ (busConsume (busSend (busSend
            (BusState.mk [] [("q1", Fut.waiting)] [] [])
            (busMessageResponse "r1" "bob" "alice" "first" "q1")).2
            (busMessageResponse "r2" "bob" "alice" "second" "q1")).2
            "q1").1 =
          some (busMessageResponse "r1" "bob" "alice" "first" "q1")
        ∧ (busSend (busConsume (busSend (busSend
            (BusState.mk [] [("q1", Fut.waiting)] [] [])
            (busMessageResponse "r1" "bob" "alice" "first" "q1")).2
            (busMessageResponse "r2" "bob" "alice" "second" "q1")).2
            "q1").2
            (busMessageResponse "r2" "bob" "alice" "second" "q1")).1 = none
        ∧ (busSend (busConsume (busSend (busSend
            (BusState.mk [] [("q1", Fut.waiting)] [] [])
            (busMessageResponse "r1" "bob" "alice" "first" "q1")).2
            (busMessageResponse "r2" "bob" "alice" "second" "q1")).2
            "q1").2
            (busMessageResponse "r2" "bob" "alice" "second" "q1")).2.pending =
          (busConsume (busSend (busSend
            (BusState.mk [] [("q1", Fut.waiting)] [] [])
            (busMessageResponse "r1" "bob" "alice" "first" "q1")).2
            (busMessageResponse "r2" "bob" "alice" "second" "q1")).2
            "q1").2.pending) :=
  ⟨by decide, rfl, by simp [keysNodup],
   correlation_at_most_once (BusState.mk [] [("q1", Fut.waiting)] [] [])
     "q1" "r1" "bob" "alice" "first" "r2" "bob" "alice" "second"
     (by decide) rfl (by simp [keysNodup])⟩

end Repowire
